import Mathlib

/-!
# Verification of taskfile-to-tasks (converter.py, cli.py)

A shallow embedding of the core logic of the `taskfile_to_tasks` package:
the option parser and merger, the task extractor, the two format
projectors, the `convert` orchestration, and the CLI exit-code handling.
JSON/YAML values are modelled by an inductive `JValue`; Python dictionaries
are association lists with Python `dict` update semantics; the external
YAML decoder and the filesystem/subprocess environment are modelled
explicitly where a claim needs them.
-/

/-- A JSON/YAML value as handled by the Python code (the payloads are
`json.loads` / `yaml.safe_load` results: `None`, booleans, integers,
strings, lists and string-keyed dictionaries). -/
inductive JValue where
  | null
  | bool (b : Bool)
  | num (n : Int)
  | str (s : String)
  | arr (xs : List JValue)
  | obj (fs : List (String × JValue))

/-- Python truthiness (`bool(v)`) of a `JValue`: `None`, `False`, `0`, the
empty string, the empty list and the empty dict are falsy. -/
def JValue.truthy : JValue → Bool
  | .null => false
  | .bool b => b
  | .num n => n != 0
  | .str s => !s.data.isEmpty
  | .arr xs => !xs.isEmpty
  | .obj fs => !fs.isEmpty

/-- Python membership test `v in l` where `l` is a list of strings: only a
string value can compare equal to a string. -/
def JValue.inStrList : JValue → List String → Bool
  | .str s, l => l.contains s
  | _, _ => false

/-- Whether a value is a Python dict (`isinstance(v, dict)`). -/
def JValue.isObj : JValue → Bool
  | .obj _ => true
  | _ => false

/-- Python `d.get(k, dflt)` on a dict modelled as an association list. -/
def pyGet (fs : List (String × JValue)) (k : String) (dflt : JValue) : JValue :=
  match fs.lookup k with
  | some v => v
  | none => dflt

/-- Field lookup on a `JValue` that is expected to be an object. -/
def objLookup (v : JValue) (k : String) : Option JValue :=
  match v with
  | .obj fs => fs.lookup k
  | _ => none

/-- The single-quote character used by Python `repr` of strings. -/
def pyQuote : String := String.singleton (Char.ofNat 39)

mutual
/-- Models Python `repr` on `JValue` payloads (string escaping inside
`repr` is not modelled beyond quoting). -/
def pyRepr : JValue → String
  | .null => "None"
  | .bool true => "True"
  | .bool false => "False"
  | .num n => toString n
  | .str s => pyQuote ++ s ++ pyQuote
  | .arr xs => "[" ++ pyReprSeq xs ++ "]"
  | .obj fs => "\x7b" ++ pyReprFields fs ++ "\x7d"

/-- Comma-separated `repr` of the elements of a Python list. -/
def pyReprSeq : List JValue → String
  | [] => ""
  | [x] => pyRepr x
  | x :: y :: xs => pyRepr x ++ ", " ++ pyReprSeq (y :: xs)

/-- Comma-separated `repr` of the entries of a Python dict. -/
def pyReprFields : List (String × JValue) → String
  | [] => ""
  | [(k, v)] => pyQuote ++ k ++ pyQuote ++ ": " ++ pyRepr v
  | (k, v) :: f :: fs =>
      pyQuote ++ k ++ pyQuote ++ ": " ++ pyRepr v ++ ", " ++ pyReprFields (f :: fs)
end

/-- Models Python `str()` as used by f-string interpolation: the identity
on strings, `repr` otherwise. -/
def pyStr : JValue → String
  | .str s => s
  | v => pyRepr v

/-! ## Option maps and `merge_options` (converter.py lines 45-60) -/

/-- An option dictionary: string keys to YAML-decoded values, in insertion
order (Python dicts preserve insertion order). -/
abbrev OptionMap := List (String × JValue)

/-- Python `d.update(e)` producing a new dict (`d` is not mutated in the
embedding): keys already in `d` keep their position and take `e`'s value,
keys of `e` not in `d` are appended in `e`'s order. -/
def dictUpdate (d e : OptionMap) : OptionMap :=
  (d.map fun kv =>
    match e.lookup kv.1 with
    | some w => (kv.1, w)
    | none => kv)
  ++ e.filter fun kv => (d.lookup kv.1).isNone

/-- Translation of `merge_options` (converter.py lines 45-60): copy the
base dict, then `result.update(extra_dict)` for each extra dict in order. -/
def merge_options (base : OptionMap) (extra : List OptionMap) : OptionMap :=
  extra.foldl dictUpdate base

/-- Specification-side lookup for a merged option map: the value of `k` in
the last override that binds it, else the base value. -/
def mergedLookup (base : OptionMap) (extra : List OptionMap) (k : String) :
    Option JValue :=
  extra.foldl
    (fun acc e =>
      match e.lookup k with
      | some w => some w
      | none => acc)
    (base.lookup k)

/-- Python dict construction from a sequence of key/value assignments:
first occurrence fixes the position, the last assignment wins. -/
def pyDictOfEntries (entries : List (String × JValue)) : OptionMap :=
  entries.foldl (fun d kv => dictUpdate d [kv]) []

/-! ## The YAML option parser (converter.py lines 19-42) -/

/-- The opening brace character. -/
def lbrace : Char := Char.ofNat 123

/-- The closing brace character. -/
def rbrace : Char := Char.ofNat 125

/-- Splitting a character list at every occurrence of a separator. -/
def charSplitOn (sep : Char) : List Char → List (List Char)
  | [] => [[]]
  | c :: cs =>
      if c = sep then [] :: charSplitOn sep cs
      else
        match charSplitOn sep cs with
        | g :: gs => (c :: g) :: gs
        | [] => [[c]]

/-- Stripping leading and trailing whitespace from a character list. -/
def charTrim (cs : List Char) : List Char :=
  ((cs.dropWhile Char.isWhitespace).reverse.dropWhile Char.isWhitespace).reverse

/-- Decimal digit sequence to a natural number (none on empty input or a
non-digit). -/
def charsToNat? (cs : List Char) : Option Nat :=
  if cs.isEmpty then none
  else
    cs.foldl
      (fun acc c =>
        match acc with
        | some n => if c.isDigit then some (10 * n + (c.toNat - 48)) else none
        | none => none)
      (some 0)

/-- Optionally signed decimal integer. -/
def charsToInt? : List Char → Option Int
  | '-' :: cs => (charsToNat? cs).map fun n => -(n : Int)
  | cs => (charsToNat? cs).map fun n => (n : Int)

/-- Decoding of a YAML plain scalar, as the safe YAML decoder resolves it:
booleans, null, integers, else a string; surrounding blanks are stripped. -/
def yamlPlainScalar (cs : List Char) : JValue :=
  let t := String.mk (charTrim cs)
  if t = "true" || t = "True" || t = "TRUE" then .bool true
  else if t = "false" || t = "False" || t = "FALSE" then .bool false
  else if t = "" || t = "null" || t = "Null" || t = "NULL" || t = "~" then .null
  else
    match charsToInt? t.data with
    | some n => .num n
    | none => .str t

/-- One `key: value` entry of a YAML flow mapping; a bare `key` maps to
null; a second unquoted colon is a YAML error. -/
def yamlFlowEntry (entry : List Char) : Except String (String × JValue) :=
  match charSplitOn ':' entry with
  | [k] =>
      if (charTrim k).isEmpty then .error "expected a mapping key"
      else .ok (String.mk (charTrim k), .null)
  | [k, v] =>
      if (charTrim k).isEmpty then .error "expected a mapping key"
      else .ok (String.mk (charTrim k), yamlPlainScalar v)
  | _ => .error "mapping values are not allowed here"

/-- Models the external safe YAML decoder (`yaml.safe_load`) on the
fragment this program feeds it: a single flow mapping of plain scalars
(keys and values without nested quotes, braces or extra colons). Inputs
outside that fragment are reported as decode errors. -/
def yamlSafeLoadFlow (s : String) : Except String JValue :=
  let cs := s.data
  if cs.head? = some lbrace ∧ cs.getLast? = some rbrace then
    let inner := (cs.drop 1).dropLast
    if (charTrim inner).isEmpty then .ok (.obj [])
    else
      match (charSplitOn ',' inner).mapM yamlFlowEntry with
      | .ok entries => .ok (.obj (pyDictOfEntries entries))
      | .error e => .error e
  else .error "could not parse yaml"

/-- Translation of `parse_yaml_option` (converter.py lines 19-42),
parameterised by the external YAML decoder: wrap the string in braces,
decode, fail if the result is not a dict (ValueError with the offending
string) or if decoding fails (ValueError with the string and the decoder
diagnostic). -/
def parse_yaml_option_with (decode : String → Except String JValue)
    (optionStr : String) : Except String OptionMap :=
  match decode ("\x7b" ++ optionStr ++ "\x7d") with
  | .ok (.obj d) => .ok d
  | .ok _ => .error ("Option must be a valid key-value pair: " ++ optionStr)
  | .error e => .error ("Invalid YAML option: " ++ optionStr ++ "\n" ++ e)

/-- `parse_yaml_option` with the modelled safe YAML decoder plugged in. -/
def parse_yaml_option (optionStr : String) : Except String OptionMap :=
  parse_yaml_option_with yamlSafeLoadFlow optionStr

/-! ## The task extractor (converter.py lines 284-322) -/

/-- The record appended by `_extract_tasks` for each kept descriptor:
`{"id": task_id, "label": task_id, "description": desc}`. -/
structure ExtractedTask where
  id : JValue
  label : JValue
  description : JValue

/-- Translation of the loop of `TaskfileToTasks._extract_tasks`
(converter.py lines 299-322) over a list of raw descriptors. Besides the
extracted records it returns the messages printed through `self._log`
(which prints only when verbose mode is enabled). Non-dict entries are
skipped; the task id is `task.get("task", "")`; a falsy id or an id in the
skip list drops the entry, logging `"Skipping task: ..."` when the id is in
the skip list; otherwise the record is appended. The `name` binding of the
source (`task.get("name", task_id)`) is dead code and carried here
unused. -/
def extractList (skipTasks : List String) (verbose : Bool) :
    List JValue → List ExtractedTask × List String
  | [] => ([], [])
  | task :: rest =>
    let acc := extractList skipTasks verbose rest
    match task with
    | .obj fs =>
      let taskId := pyGet fs "task" (.str "")
      if !taskId.truthy || taskId.inStrList skipTasks then
        (acc.1,
          (if taskId.inStrList skipTasks && verbose then
            ["Skipping task: " ++ pyStr taskId]
          else []) ++ acc.2)
      else
        let name := pyGet fs "name" taskId
        let desc := pyGet fs "desc" (.str "")
        ({ id := taskId, label := taskId, description := desc } :: acc.1, acc.2)
    | _ => acc

/-- Translation of `TaskfileToTasks._extract_tasks` (converter.py lines
284-322): raises `ValueError` when the input is not a list, otherwise
processes the entries. -/
def extract_tasks (skipTasks : List String) (verbose : Bool)
    (tasksData : JValue) : Except String (List ExtractedTask × List String) :=
  match tasksData with
  | .arr xs => .ok (extractList skipTasks verbose xs)
  | _ => .error "Expected tasks_data to be a list"

/-- Specification-side description of the log stream: one message per
dict descriptor whose id is in the skip list. -/
def skipLogSpec (skipTasks : List String) (xs : List JValue) : List String :=
  xs.filterMap fun v =>
    match v with
    | .obj fs =>
      let taskId := pyGet fs "task" (.str "")
      if taskId.inStrList skipTasks then some ("Skipping task: " ++ pyStr taskId)
      else none
    | _ => none

/-- Overwriting the "name" field of a dict descriptor (helper for stating
that the "name" field never influences the extractor). -/
def setName (n : JValue) (v : JValue) : JValue :=
  match v with
  | .obj fs => .obj (dictUpdate fs [("name", n)])
  | w => w

/-- Modelled from the spec: the skip-pattern filtering of the Task
Extractor. `cli.py` passes a `skip_task_patterns` argument, but the
converter under `src/` does not implement it (its `__init__` has no such
parameter), so the pattern-aware extractor is modelled from spec section
4.4: a descriptor whose id is in the skip set or matches any skip pattern
is dropped. A pattern is represented by its compiled matcher, a Boolean
predicate on the id string, with search semantics (a pattern matching any
substring of the id excludes it); pattern matching applies to string
ids. -/
def extractListPatterns (skipTasks : List String)
    (skipPatterns : List (String → Bool)) :
    List JValue → List ExtractedTask
  | [] => []
  | task :: rest =>
    let acc := extractListPatterns skipTasks skipPatterns rest
    match task with
    | .obj fs =>
      let taskId := pyGet fs "task" (.str "")
      let patternHit :=
        match taskId with
        | .str s => skipPatterns.any fun p => p s
        | _ => false
      if !taskId.truthy || taskId.inStrList skipTasks || patternHit then acc
      else
        let desc := pyGet fs "desc" (.str "")
        { id := taskId, label := taskId, description := desc } :: acc
    | _ => acc

/-! ## The format projectors (converter.py lines 324-399) -/

/-- The default VSCode presentation options (converter.py lines 336-341). -/
def vscodeDefaultOptions : OptionMap :=
  [("echo", .bool true), ("reveal", .str "always"),
   ("focus", .bool false), ("panel", .str "shared")]

/-- Translation of `TaskfileToTasks._generate_vscode_tasks` (converter.py
lines 324-363): the presentation map is merged once from the defaults and
the extra VSCode options and shared by every entry; each entry gets label,
type "shell", command, args `[id]`, presentation, group, and a description
field appended only when the task's description is truthy. -/
def generate_vscode_tasks (taskCommand : String)
    (extraVscodeOptions : List OptionMap) (tasks : List ExtractedTask) :
    JValue :=
  let presentation := merge_options vscodeDefaultOptions extraVscodeOptions
  let vscodeTasks := tasks.map fun task =>
    let base : List (String × JValue) :=
      [("label", task.label),
       ("type", .str "shell"),
       ("command", .str taskCommand),
       ("args", .arr [task.id]),
       ("presentation", .obj presentation),
       ("group", .obj [("kind", .str "build"), ("isDefault", .bool false)])]
    if task.description.truthy then
      .obj (base ++ [("description", task.description)])
    else .obj base
  .obj [("version", .str "2.0.0"), ("tasks", .arr vscodeTasks)]

/-- The default Zed task options (converter.py line 377). -/
def zedDefaultOptions : OptionMap := [("use_new_terminal", .bool true)]

/-- Translation of `TaskfileToTasks._generate_zed_tasks` (converter.py
lines 365-399): the extra options are merged once from the defaults and
the extra Zed options; each entry is built with label (an f-string
`"<id> - <description>"` when the description is truthy, else the raw id),
command and args `[id]`, and is then updated with the merged options
(`zed_task.update(extra_merged)`). -/
def generate_zed_tasks (taskCommand : String)
    (extraZedOptions : List OptionMap) (tasks : List ExtractedTask) :
    JValue :=
  let extraMerged := merge_options zedDefaultOptions extraZedOptions
  let zedTasks := tasks.map fun task =>
    let taskLabel : JValue :=
      if task.description.truthy then
        .str (pyStr task.id ++ " - " ++ pyStr task.description)
      else task.id
    .obj (dictUpdate
      [("label", taskLabel),
       ("command", .str taskCommand),
       ("args", .arr [task.id])]
      extraMerged)
  .arr zedTasks

/-! ## The `convert` orchestration (converter.py lines 401-436) -/

/-- The two supported editors; `__init__` rejects everything else. -/
inductive Editor where
  | vscode
  | zed

/-- The externally observable outcome of one `convert()` call: whether the
"Warning: No tasks found" message was printed, the single whole-file write
performed (output path and the document handed to the JSON serializer,
which is external and dumps it with indent 2), and the returned value. -/
structure ConvertOutcome where
  warnedNoTasks : Bool
  written : Option (String × JValue)
  returnedPath : Option String

/-- Translation of `TaskfileToTasks.convert` (converter.py lines 401-436)
after the loader has produced the raw task list: extract; if no tasks were
extracted, warn and return None without writing; otherwise project for the
configured editor, write the serialized document to
`output_dir/tasks.json` (opened with mode "w": a whole-file overwrite) and
return that path. -/
def convert (editor : Editor) (taskCommand : String) (skipTasks : List String)
    (verbose : Bool) (extraZedOptions extraVscodeOptions : List OptionMap)
    (outputDir : String) (tasksData : List JValue) : ConvertOutcome :=
  let tasks := (extractList skipTasks verbose tasksData).1
  if tasks.isEmpty then
    { warnedNoTasks := true, written := none, returnedPath := none }
  else
    let outputData :=
      match editor with
      | .vscode => generate_vscode_tasks taskCommand extraVscodeOptions tasks
      | .zed => generate_zed_tasks taskCommand extraZedOptions tasks
    let outputFile := outputDir ++ "/tasks.json"
    { warnedNoTasks := false,
      written := some (outputFile, outputData),
      returnedPath := some outputFile }

/-! ## The CLI entry point (cli.py lines 126-176) -/

/-- The keyword parameter names accepted by `TaskfileToTasks.__init__`
(converter.py lines 66-75). -/
def initParams : List String :=
  ["source_file", "output_dir", "editor", "skip_tasks",
   "extra_zed_options", "extra_vscode_options", "verbose"]

/-- The keyword arguments `main` passes to the `TaskfileToTasks`
constructor (cli.py lines 139-148). -/
def mainCallKwargs : List String :=
  ["source_file", "output_dir", "editor", "skip_tasks", "skip_task_patterns",
   "extra_zed_options", "extra_vscode_options", "verbose"]

/-- The exceptions distinguished by `main`'s handlers. -/
inductive PyError where
  | fileNotFound (msg : String)
  | valueError (msg : String)
  | yamlError (msg : String)
  | typeError (msg : String)
  | runtimeError (msg : String)

/-- Translation of `main`'s except chain (cli.py lines 157-171): every
handler prints one line to standard error and returns 1; TypeError and
RuntimeError fall through to the generic `except Exception` handler. -/
def mainHandle : PyError → Nat × List String
  | .fileNotFound m => (1, ["Error: " ++ m])
  | .valueError m => (1, ["Error: " ++ m])
  | .yamlError m => (1, ["Error parsing YAML: " ++ m])
  | .typeError m => (1, ["Unexpected error: " ++ m])
  | .runtimeError m => (1, ["Unexpected error: " ++ m])

/-- The body of `main`'s try block (cli.py lines 138-155): the call
`TaskfileToTasks(...)` raises TypeError unless every keyword argument is
among the constructor's parameters; only then do the constructor's own
checks and the preview/convert work run, abstracted here as `rest` (their
outcome depends on the filesystem and subprocess environment). -/
def mainTryBody (rest : Except PyError Unit) : Except PyError Unit :=
  if mainCallKwargs.all (fun k => initParams.contains k) then rest
  else
    .error (.typeError
      "__init__() got an unexpected keyword argument: skip_task_patterns")

/-- Translation of `main` (cli.py lines 126-171): exit code 0 when the try
block completes, otherwise the handler's exit code and standard-error
line. -/
def mainResult (rest : Except PyError Unit) : Nat × List String :=
  match mainTryBody rest with
  | .ok _ => (0, [])
  | .error e => mainHandle e

/-- Specification-side VSCode task entry, following the claim: label, type
"shell", command = the resolved executable name, args = the one-element
list [id], the shared presentation object (defaults merged once with the
extra options), the build group, and a trailing description field exactly
when the task's description is non-empty. -/
def vscodeEntrySpec (taskCommand : String) (extras : List OptionMap)
    (t : ExtractedTask) : JValue :=
  if t.description.truthy then
    .obj [("label", t.label),
          ("type", .str "shell"),
          ("command", .str taskCommand),
          ("args", .arr [t.id]),
          ("presentation", .obj (merge_options vscodeDefaultOptions extras)),
          ("group", .obj [("kind", .str "build"), ("isDefault", .bool false)]),
          ("description", t.description)]
  else
    .obj [("label", t.label),
          ("type", .str "shell"),
          ("command", .str taskCommand),
          ("args", .arr [t.id]),
          ("presentation", .obj (merge_options vscodeDefaultOptions extras)),
          ("group", .obj [("kind", .str "build"), ("isDefault", .bool false)])]

/-- Specification-side Zed task entry, following the amended claim: the
map {label, command, args} updated with the merged options (so option
keys override those fields on collision), the label being
"<id> - <description>" for a truthy description and the raw id
otherwise. -/
def zedEntrySpec (taskCommand : String) (extras : List OptionMap)
    (t : ExtractedTask) : JValue :=
  .obj (dictUpdate
    [("label",
      if t.description.truthy then
        .str (pyStr t.id ++ " - " ++ pyStr t.description)
      else t.id),
     ("command", .str taskCommand),
     ("args", .arr [t.id])]
    (merge_options zedDefaultOptions extras))

/-! ## Lookup lemmas for the Python dict model -/

/-- Lookup in a concatenation: the left part wins. -/
theorem lookup_append (l₁ l₂ : OptionMap) (k : String) :
    (l₁ ++ l₂).lookup k =
      match l₁.lookup k with
      | some v => some v
      | none => l₂.lookup k := by
  induction l₁ with
  | nil => simp
  | cons kv t ih =>
    obtain ⟨k₀, v₀⟩ := kv
    by_cases h : k = k₀
    · subst h
      simp [List.lookup_cons]
    · simp [List.lookup_cons, beq_false_of_ne h, ih]

/-- Lookup in the value-updated copy of a dict. -/
theorem lookup_mapUpdate (d e : OptionMap) (k : String) :
    ((d.map fun kv =>
      match e.lookup kv.1 with
      | some w => (kv.1, w)
      | none => kv) : OptionMap).lookup k =
      match d.lookup k with
      | some v =>
          some
            (match e.lookup k with
            | some w => w
            | none => v)
      | none => none := by
  induction d with
  | nil => simp
  | cons kv t ih =>
    obtain ⟨k₀, v₀⟩ := kv
    by_cases h : k = k₀
    · subst h
      cases he : e.lookup k <;> simp [List.lookup_cons, he]
    · cases he : e.lookup k₀ <;>
        simp [List.lookup_cons, beq_false_of_ne h, ih, he]

/-- Filtering with a predicate that keeps every entry with key `k` does
not change the lookup of `k`. -/
theorem lookup_filter_keep (e : OptionMap) (p : String × JValue → Bool)
    (k : String) (hp : ∀ v, p (k, v) = true) :
    (e.filter p).lookup k = e.lookup k := by
  induction e with
  | nil => simp
  | cons kv t ih =>
    obtain ⟨k₀, v₀⟩ := kv
    by_cases h : k = k₀
    · subst h
      simp [List.filter_cons, hp v₀, List.lookup_cons]
    · cases hq : p (k₀, v₀) <;>
        simp [List.filter_cons, hq, List.lookup_cons, beq_false_of_ne h, ih]

/-- The lookup of `k` after a Python `d.update(e)`: `e`'s binding wins,
else `d`'s. -/
theorem lookup_dictUpdate (d e : OptionMap) (k : String) :
    (dictUpdate d e).lookup k =
      match e.lookup k with
      | some w => some w
      | none => d.lookup k := by
  unfold dictUpdate
  rw [lookup_append, lookup_mapUpdate]
  cases hd : d.lookup k with
  | some v =>
    cases he : e.lookup k <;> simp [he]
  | none =>
    rw [lookup_filter_keep]
    · cases he : e.lookup k <;> simp [he, hd]
    · intro v
      simp [hd]

/-- The lookup of `k` in a merged option map: the last override binding
`k` wins, else the base binding. -/
theorem lookup_merge_options (base : OptionMap) (extra : List OptionMap)
    (k : String) :
    (merge_options base extra).lookup k = mergedLookup base extra k := by
  induction extra generalizing base with
  | nil => rfl
  | cons e t ih =>
    have h1 : merge_options base (e :: t) = merge_options (dictUpdate base e) t :=
      rfl
    have h2 : mergedLookup base (e :: t) k = mergedLookup (dictUpdate base e) t k := by
      unfold mergedLookup
      simp only [List.foldl_cons]
      congr 1
      rw [lookup_dictUpdate]
    rw [h1, ih, h2]

/-! ## Claim C6: the option merger -/

/-- C6: the Option Merger never mutates its inputs (it is a pure function
in this embedding, mirroring `base.copy()` plus `result.update`); for
every base map and ordered override sequence the overrides are applied in
order with last-write-wins (the lookup of a merged map is the last
override binding the key, else the base binding, so a key present in both
base and an override takes the override's value); and merging is
associative in application order: merging `[a, b, c]` equals merging
`[merge([a,b]), c]`. -/
theorem c6_merge_options_order_and_assoc :
    (∀ base a b c : OptionMap,
        merge_options base [a, b, c] =
          merge_options (merge_options base [a, b]) [c])
    ∧ (∀ base : OptionMap, merge_options base [] = base)
    ∧ (∀ (base : OptionMap) (extra : List OptionMap) (k : String),
        (merge_options base extra).lookup k = mergedLookup base extra k)
    ∧ (∀ (base o : OptionMap) (k : String) (v : JValue),
        o.lookup k = some v → (merge_options base [o]).lookup k = some v) := by
  refine ⟨fun base a b c => rfl, fun base => rfl, lookup_merge_options, ?_⟩
  intro base o k v h
  rw [lookup_merge_options]
  unfold mergedLookup
  simp [h]

/-- Witness for C6 at a concrete input: the override's value wins for a
key present in both base and override. -/
theorem c6_merge_options_order_and_assoc_witness :
    (merge_options [("a", JValue.num 1)] [[("a", JValue.num 2)]]).lookup "a" =
      some (JValue.num 2) :=
  c6_merge_options_order_and_assoc.2.2.2 [("a", JValue.num 1)]
    [("a", JValue.num 2)] "a" (JValue.num 2) rfl

/-! ## Claim C5: the YAML option parser -/

/-- C5: for every option string, if the safe YAML decoder turns the
brace-wrapped string into a mapping then `parse_yaml_option` returns that
mapping (so a valid `"k: v"` yields `{k: v}` with the value decoded to its
proper scalar type, as the concrete boolean/string/number conjuncts show);
if the decoded result is not a mapping it fails with an error carrying the
offending string; if decoding fails it fails with an error carrying the
offending string and the decoder diagnostic; and it fails in no other
case. -/
theorem c5_parse_yaml_option_contract :
    (∀ (decode : String → Except String JValue) (s : String),
      (∀ d, decode ("\x7b" ++ s ++ "\x7d") = .ok (.obj d) →
          parse_yaml_option_with decode s = .ok d)
      ∧ (∀ v, decode ("\x7b" ++ s ++ "\x7d") = .ok v → v.isObj = false →
          parse_yaml_option_with decode s =
            .error ("Option must be a valid key-value pair: " ++ s))
      ∧ (∀ e, decode ("\x7b" ++ s ++ "\x7d") = .error e →
          parse_yaml_option_with decode s =
            .error ("Invalid YAML option: " ++ s ++ "\n" ++ e))
      ∧ (∀ m, parse_yaml_option_with decode s = .error m →
          ∀ d, decode ("\x7b" ++ s ++ "\x7d") ≠ .ok (.obj d)))
    ∧ parse_yaml_option "use_new_terminal: true" =
        .ok [("use_new_terminal", .bool true)]
    ∧ parse_yaml_option "cwd: /tmp" = .ok [("cwd", .str "/tmp")]
    ∧ parse_yaml_option "port: 8080" = .ok [("port", .num 8080)] := by
  refine ⟨fun decode s => ⟨?_, ?_, ?_, ?_⟩, rfl, rfl, rfl⟩
  · intro d h
    simp [parse_yaml_option_with, h]
  · intro v h hobj
    cases v <;> simp_all [parse_yaml_option_with, JValue.isObj]
  · intro e h
    simp [parse_yaml_option_with, h]
  · intro m hm d hd
    simp [parse_yaml_option_with, hd] at hm

/-- Witness for C5 at a concrete input: the decoder succeeds with a
mapping, and the parser returns it. -/
theorem c5_parse_yaml_option_contract_witness :
    parse_yaml_option_with yamlSafeLoadFlow "x: 1" = .ok [("x", JValue.num 1)] :=
  (c5_parse_yaml_option_contract.1 yamlSafeLoadFlow "x: 1").1
    [("x", JValue.num 1)] rfl

/-! ## Unfolding lemmas for the extractor -/

/-- One step of the extractor on a dict descriptor. -/
theorem extractList_cons_obj (skip : List String) (verbose : Bool)
    (fs : List (String × JValue)) (rest : List JValue) :
    extractList skip verbose (.obj fs :: rest) =
      (if !(pyGet fs "task" (.str "")).truthy ||
          (pyGet fs "task" (.str "")).inStrList skip then
        ((extractList skip verbose rest).1,
          (if (pyGet fs "task" (.str "")).inStrList skip && verbose then
            ["Skipping task: " ++ pyStr (pyGet fs "task" (.str ""))]
          else []) ++ (extractList skip verbose rest).2)
      else
        ({ id := pyGet fs "task" (.str ""),
           label := pyGet fs "task" (.str ""),
           description := pyGet fs "desc" (.str "") } ::
            (extractList skip verbose rest).1,
          (extractList skip verbose rest).2)) := rfl

/-- One step of the extractor on a non-dict descriptor: it is skipped
without output or log. -/
theorem extractList_cons_nonobj (skip : List String) (verbose : Bool)
    (v : JValue) (rest : List JValue) (h : v.isObj = false) :
    extractList skip verbose (v :: rest) = extractList skip verbose rest := by
  cases v <;> first | rfl | simp_all [JValue.isObj]

/-- One step of the log specification on a dict descriptor. -/
theorem skipLogSpec_cons_obj (skip : List String)
    (fs : List (String × JValue)) (rest : List JValue) :
    skipLogSpec skip (.obj fs :: rest) =
      (if (pyGet fs "task" (.str "")).inStrList skip then
        ["Skipping task: " ++ pyStr (pyGet fs "task" (.str ""))]
      else []) ++ skipLogSpec skip rest := by
  unfold skipLogSpec
  rw [List.filterMap_cons]
  by_cases h : (pyGet fs "task" (.str "")).inStrList skip = true <;> simp [h]

/-- One step of the log specification on a non-dict descriptor. -/
theorem skipLogSpec_cons_nonobj (skip : List String) (v : JValue)
    (rest : List JValue) (h : v.isObj = false) :
    skipLogSpec skip (v :: rest) = skipLogSpec skip rest := by
  unfold skipLogSpec
  rw [List.filterMap_cons]
  cases v <;> simp_all [JValue.isObj]

/-! ## Claim C3: skip set and verbose logging -/

/-- C3: for every configured skip-id set and every raw task list, no
extracted record's id is in the skip set, and the skip-drop messages are
emitted exactly when verbose mode is enabled (under verbose the log stream
is one "Skipping task" message per skipped descriptor, otherwise it is
empty). -/
theorem c3_skip_set_excludes_and_verbose_logs
    (skip : List String) (verbose : Bool) (xs : List JValue) :
    (∀ t, t ∈ (extractList skip verbose xs).1 →
      t.id.inStrList skip = false)
    ∧ (extractList skip verbose xs).2 =
        (if verbose then skipLogSpec skip xs else []) := by
  induction xs with
  | nil =>
    exact ⟨fun t h => absurd h (by simp [extractList]),
      by simp [extractList, skipLogSpec]⟩
  | cons v rest ih =>
    obtain ⟨ih1, ih2⟩ := ih
    by_cases hobj : v.isObj = true
    · obtain ⟨fs, rfl⟩ : ∃ fs, v = .obj fs := by
        cases v <;> simp_all [JValue.isObj]
      by_cases hdrop : (!(pyGet fs "task" (.str "")).truthy ||
          (pyGet fs "task" (.str "")).inStrList skip) = true
      · refine ⟨?_, ?_⟩
        · intro t ht
          rw [extractList_cons_obj] at ht
          simp only [hdrop, if_true] at ht
          exact ih1 t ht
        · rw [extractList_cons_obj]
          simp only [hdrop, if_true]
          rw [skipLogSpec_cons_obj, ih2]
          cases verbose <;>
            by_cases hin : (pyGet fs "task" (.str "")).inStrList skip = true <;>
              simp [hin]
      · have hkeep : (!(pyGet fs "task" (.str "")).truthy ||
            (pyGet fs "task" (.str "")).inStrList skip) = false := by
          simpa using hdrop
        have hin : (pyGet fs "task" (.str "")).inStrList skip = false := by
          rcases Bool.or_eq_false_iff.mp hkeep with ⟨-, h⟩
          exact h
        refine ⟨?_, ?_⟩
        · intro t ht
          rw [extractList_cons_obj] at ht
          simp only [hkeep, Bool.false_eq_true, if_false] at ht
          rcases List.mem_cons.mp ht with rfl | hmem
          · exact hin
          · exact ih1 t hmem
        · rw [extractList_cons_obj]
          simp only [hkeep, Bool.false_eq_true, if_false]
          rw [skipLogSpec_cons_obj, ih2, hin]
          simp
    · have hno : v.isObj = false := by simpa using hobj
      rw [extractList_cons_nonobj skip verbose v rest hno,
        skipLogSpec_cons_nonobj skip v rest hno]
      exact ⟨ih1, ih2⟩

/-- Witness for C3 at a concrete input: with skip set `["build"]` the
descriptor for "build" is excluded and, verbose being off, nothing is
logged. -/
theorem c3_skip_set_excludes_and_verbose_logs_witness :
    (ExtractedTask.mk (.str "lint") (.str "lint") (.str "")).id.inStrList
        ["build"] = false
    ∧ (extractList ["build"] false
        [.obj [("task", .str "build")], .obj [("task", .str "lint")]]).2 = [] :=
  ⟨(c3_skip_set_excludes_and_verbose_logs ["build"] false
      [.obj [("task", .str "build")], .obj [("task", .str "lint")]]).1
      (ExtractedTask.mk (.str "lint") (.str "lint") (.str ""))
      (by rw [extractList_cons_obj, extractList_cons_obj]; simp [pyGet,
        JValue.inStrList, JValue.truthy, List.lookup]),
    ((c3_skip_set_excludes_and_verbose_logs ["build"] false
      [.obj [("task", .str "build")], .obj [("task", .str "lint")]]).2).trans
      (by simp)⟩

/-! ## Claim C9: label equals id; the "name" field is ignored -/

/-- Lookup of a key other than "name" is unchanged by overwriting the
"name" field. -/
theorem pyGet_dictUpdate_name (fs : List (String × JValue)) (n : JValue)
    (k : String) (dflt : JValue)
    (hk : ([("name", n)] : OptionMap).lookup k = none) :
    pyGet (dictUpdate fs [("name", n)]) k dflt = pyGet fs k dflt := by
  unfold pyGet
  rw [lookup_dictUpdate, hk]

/-- C9: every record kept by the extractor has its label equal to its id,
and the "name" field of a descriptor never influences the extractor's
output: rewriting the "name" field of every descriptor to an arbitrary
value leaves the output (records and logs) unchanged. -/
theorem c9_label_is_id_and_name_ignored :
    (∀ (skip : List String) (verbose : Bool) (xs : List JValue)
        (t : ExtractedTask),
      t ∈ (extractList skip verbose xs).1 → t.label = t.id)
    ∧ (∀ (skip : List String) (verbose : Bool) (xs : List JValue) (n : JValue),
      extractList skip verbose (xs.map (setName n)) =
        extractList skip verbose xs) := by
  constructor
  · intro skip verbose xs
    induction xs with
    | nil => exact fun t h => absurd h (by simp [extractList])
    | cons v rest ih =>
      by_cases hobj : v.isObj = true
      · obtain ⟨fs, rfl⟩ : ∃ fs, v = .obj fs := by
          cases v <;> simp_all [JValue.isObj]
        intro t ht
        rw [extractList_cons_obj] at ht
        by_cases hdrop : (!(pyGet fs "task" (.str "")).truthy ||
            (pyGet fs "task" (.str "")).inStrList skip) = true
        · simp only [hdrop, if_true] at ht
          exact ih t ht
        · simp only [Bool.not_eq_true] at hdrop
          simp only [hdrop, Bool.false_eq_true, if_false] at ht
          rcases List.mem_cons.mp ht with rfl | hmem
          · rfl
          · exact ih t hmem
      · have hno : v.isObj = false := by simpa using hobj
        rw [extractList_cons_nonobj skip verbose v rest hno]
        exact ih
  · intro skip verbose xs n
    induction xs with
    | nil => rfl
    | cons v rest ih =>
      by_cases hobj : v.isObj = true
      · obtain ⟨fs, rfl⟩ : ∃ fs, v = .obj fs := by
          cases v <;> simp_all [JValue.isObj]
        have htask : pyGet (dictUpdate fs [("name", n)]) "task" (.str "") =
            pyGet fs "task" (.str "") :=
          pyGet_dictUpdate_name fs n "task" (.str "") rfl
        have hdesc : pyGet (dictUpdate fs [("name", n)]) "desc" (.str "") =
            pyGet fs "desc" (.str "") :=
          pyGet_dictUpdate_name fs n "desc" (.str "") rfl
        show extractList skip verbose
            (.obj (dictUpdate fs [("name", n)]) :: rest.map (setName n)) = _
        rw [extractList_cons_obj, extractList_cons_obj, htask, hdesc, ih]
      · have hno : v.isObj = false := by simpa using hobj
        have hset : setName n v = v := by
          cases v <;> simp_all [setName, JValue.isObj]
        show extractList skip verbose (setName n v :: rest.map (setName n)) = _
        rw [hset, extractList_cons_nonobj skip verbose v _ hno,
          extractList_cons_nonobj skip verbose v rest hno, ih]

/-- Witness for C9 at a concrete input: the record extracted for "build"
carries its id as its label. -/
theorem c9_label_is_id_and_name_ignored_witness :
    (ExtractedTask.mk (.str "build") (.str "build") (.str "")).label =
      (ExtractedTask.mk (.str "build") (.str "build") (.str "")).id :=
  c9_label_is_id_and_name_ignored.1 [] false
    [.obj [("task", .str "build"), ("name", .str "other")]]
    (ExtractedTask.mk (.str "build") (.str "build") (.str ""))
    (List.Mem.head _)

/-! ## Claim C10: totality of the extractor on list inputs -/

/-- C10 counterexample: a mapping entry with a missing "task" field is not
always dropped silently. With the empty string in the skip set and verbose
mode on, dropping the descriptor `{}` (task id defaults to `""`, which is
in the skip set) emits a "Skipping task: " log message, so the drop is not
silent as the claim states. -/
theorem c10_counterexample_empty_id_logged :
    (extractList [""] true [.obj []]).2 = ["Skipping task: "]
    ∧ (extractList [""] true [.obj []]).2 ≠ [] := by
  exact ⟨rfl, by decide⟩

/-- C10 (amended): the Task Extractor is total on list inputs: for every
input list it returns a result without raising; it drops any entry that is
not a mapping (silently), and any mapping entry whose "task" field is
missing or empty — silently, except that when the empty string is itself
in the configured skip set the drop is logged at verbose level; and it
raises exactly when the input is not a list. -/
theorem c10_extractor_total_on_lists :
    (∀ (skip : List String) (verbose : Bool) (xs : List JValue),
      ∃ r, extract_tasks skip verbose (.arr xs) = .ok r)
    ∧ (∀ (skip : List String) (verbose : Bool) (v : JValue)
        (rest : List JValue), v.isObj = false →
      extractList skip verbose (v :: rest) = extractList skip verbose rest)
    ∧ (∀ (skip : List String) (verbose : Bool)
        (fs : List (String × JValue)) (rest : List JValue),
      fs.lookup "task" = none ∨ fs.lookup "task" = some (.str "") →
      (extractList skip verbose (.obj fs :: rest)).1 =
          (extractList skip verbose rest).1
        ∧ (extractList skip verbose (.obj fs :: rest)).2 =
            (if skip.contains "" && verbose then ["Skipping task: "]
            else []) ++ (extractList skip verbose rest).2)
    ∧ (∀ (skip : List String) (verbose : Bool) (v : JValue),
      (∃ m, extract_tasks skip verbose v = .error m) ↔ ∀ xs, v ≠ .arr xs) := by
  refine ⟨fun skip verbose xs => ⟨extractList skip verbose xs, rfl⟩,
    extractList_cons_nonobj, ?_, ?_⟩
  · intro skip verbose fs rest htask
    have hid : pyGet fs "task" (.str "") = .str "" := by
      unfold pyGet
      rcases htask with h | h <;> rw [h]
    have htr : (JValue.str "").truthy = false := rfl
    have hin : (JValue.str "").inStrList skip = skip.contains "" := rfl
    have hmsg : "Skipping task: " ++ pyStr (JValue.str "") = "Skipping task: " :=
      rfl
    rw [extractList_cons_obj, hid, htr, hin, hmsg, Bool.not_false, Bool.true_or]
    exact ⟨by simp, by simp⟩
  · intro skip verbose v
    constructor
    · rintro ⟨m, hm⟩ xs rfl
      simp [extract_tasks] at hm
    · intro h
      cases v with
      | arr xs => exact absurd rfl (h xs)
      | null => exact ⟨_, rfl⟩
      | bool b => exact ⟨_, rfl⟩
      | num n => exact ⟨_, rfl⟩
      | str s => exact ⟨_, rfl⟩
      | obj fs => exact ⟨_, rfl⟩

/-- Witness for C10 at concrete inputs: a list input yields a result, a
non-dict entry is dropped, a missing "task" field is dropped without
output, and a non-list input raises. -/
theorem c10_extractor_total_on_lists_witness :
    (∃ r, extract_tasks [] false (.arr [.str "oops"]) = .ok r)
    ∧ extractList [] false [.str "oops"] = extractList [] false []
    ∧ (extractList [] false [.obj [("desc", .str "d")]]).1 =
        (extractList [] false []).1
    ∧ (∃ m, extract_tasks [] false (.str "nope") = .error m) :=
  ⟨c10_extractor_total_on_lists.1 [] false [.str "oops"],
    c10_extractor_total_on_lists.2.1 [] false (.str "oops") [] rfl,
    (c10_extractor_total_on_lists.2.2.1 [] false [("desc", .str "d")] []
      (Or.inl rfl)).1,
    (c10_extractor_total_on_lists.2.2.2 [] false (.str "nope")).mpr
      (fun _ h => JValue.noConfusion h)⟩

/-! ## Claim C1: skip patterns (modelled from the spec) -/

/-- One step of the pattern-aware extractor on a dict descriptor. -/
theorem extractListPatterns_cons_obj (skip : List String)
    (pats : List (String → Bool)) (fs : List (String × JValue))
    (rest : List JValue) :
    extractListPatterns skip pats (.obj fs :: rest) =
      (if !(pyGet fs "task" (.str "")).truthy ||
          (pyGet fs "task" (.str "")).inStrList skip ||
          (match pyGet fs "task" (.str "") with
           | .str s => pats.any fun p => p s
           | _ => false) then
        extractListPatterns skip pats rest
      else
        { id := pyGet fs "task" (.str ""),
          label := pyGet fs "task" (.str ""),
          description := pyGet fs "desc" (.str "") } ::
          extractListPatterns skip pats rest) := rfl

/-- One step of the pattern-aware extractor on a non-dict descriptor. -/
theorem extractListPatterns_cons_nonobj (skip : List String)
    (pats : List (String → Bool)) (v : JValue) (rest : List JValue)
    (h : v.isObj = false) :
    extractListPatterns skip pats (v :: rest) =
      extractListPatterns skip pats rest := by
  cases v <;> first | rfl | simp_all [JValue.isObj]

/-- C1: for every configured sequence of skip patterns and every raw task
list, no record whose id matches any of the patterns appears in the
pattern-aware extractor's output (the extractor itself is modelled from
the spec, the feature being absent from the converter under `src/`). -/
theorem c1_skip_patterns_excluded (skip : List String)
    (pats : List (String → Bool)) (xs : List JValue) (t : ExtractedTask)
    (ht : t ∈ extractListPatterns skip pats xs) (p : String → Bool)
    (hp : p ∈ pats) (s : String) (hs : t.id = .str s) :
    p s = false := by
  induction xs with
  | nil => cases ht
  | cons v rest ih =>
    by_cases hobj : v.isObj = true
    · obtain ⟨fs, rfl⟩ : ∃ fs, v = .obj fs := by
        cases v <;> simp_all [JValue.isObj]
      rw [extractListPatterns_cons_obj] at ht
      by_cases hcond : (!(pyGet fs "task" (.str "")).truthy ||
          (pyGet fs "task" (.str "")).inStrList skip ||
          (match pyGet fs "task" (.str "") with
           | .str u => pats.any fun q => q u
           | _ => false)) = true
      · simp only [hcond, if_true] at ht
        exact ih ht
      · simp only [Bool.not_eq_true] at hcond
        simp only [hcond, Bool.false_eq_true, if_false] at ht
        rcases List.mem_cons.mp ht with rfl | hmem
        · have hid : pyGet fs "task" (.str "") = .str s := hs
          rw [hid] at hcond
          have hany : (pats.any fun q => q s) = false := by
            rcases Bool.or_eq_false_iff.mp hcond with ⟨-, h⟩
            simpa using h
          have := List.any_eq_false.mp hany
          simpa using this p hp
        · exact ih hmem
    · have hno : v.isObj = false := by simpa using hobj
      rw [extractListPatterns_cons_nonobj skip pats v rest hno] at ht
      exact ih ht

/-- Witness for C1 at a concrete input: the pattern matching "test_unit"
excludes that task, the surviving record "build" does not match it. -/
theorem c1_skip_patterns_excluded_witness :
    ((fun u => u == "test_unit") : String → Bool) "build" = false :=
  c1_skip_patterns_excluded [] [fun u => u == "test_unit"]
    [.obj [("task", .str "test_unit")], .obj [("task", .str "build")]]
    (ExtractedTask.mk (.str "build") (.str "build") (.str ""))
    (List.Mem.head _) (fun u => u == "test_unit") (List.Mem.head _)
    "build" rfl

/-! ## Claim C7: the VSCode projector -/

/-- A string value is falsy exactly when the string is empty. -/
theorem str_empty_iff (s : String) : (JValue.str s).truthy = false ↔ s = "" := by
  constructor
  · intro h
    obtain ⟨data⟩ := s
    cases data with
    | nil => rfl
    | cons c cs => simp [JValue.truthy] at h
  · rintro rfl
    rfl

/-- C7: the VSCode projector returns `{version: "2.0.0", tasks: [...]}`
with one entry per task in input order, each entry carrying the label,
type "shell", the resolved command, args `[id]`, the presentation object
(the defaults merged once with the extra options, shared by all entries),
the build group, and a description field exactly when the task's
description is a non-empty string. -/
theorem c7_vscode_projector_shape (taskCommand : String)
    (extras : List OptionMap) (tasks : List ExtractedTask) :
    generate_vscode_tasks taskCommand extras tasks =
      .obj [("version", .str "2.0.0"),
            ("tasks", .arr (tasks.map (vscodeEntrySpec taskCommand extras)))]
    ∧ ∀ t : ExtractedTask,
      objLookup (vscodeEntrySpec taskCommand extras t) "label" = some t.label
      ∧ objLookup (vscodeEntrySpec taskCommand extras t) "type" =
          some (.str "shell")
      ∧ objLookup (vscodeEntrySpec taskCommand extras t) "command" =
          some (.str taskCommand)
      ∧ objLookup (vscodeEntrySpec taskCommand extras t) "args" =
          some (.arr [t.id])
      ∧ objLookup (vscodeEntrySpec taskCommand extras t) "presentation" =
          some (.obj (merge_options vscodeDefaultOptions extras))
      ∧ objLookup (vscodeEntrySpec taskCommand extras t) "group" =
          some (.obj [("kind", .str "build"), ("isDefault", .bool false)])
      ∧ ∀ s : String, t.description = .str s →
          objLookup (vscodeEntrySpec taskCommand extras t) "description" =
            (if s = "" then none else some (.str s)) := by
  constructor
  · rfl
  · intro t
    unfold vscodeEntrySpec
    by_cases hd : t.description.truthy = true
    · simp only [hd, if_true]
      refine ⟨rfl, rfl, rfl, rfl, rfl, rfl, ?_⟩
      intro s hs
      have h0 : ¬ s = "" := by
        intro h
        subst h
        rw [hs] at hd
        exact absurd hd (by simp [JValue.truthy])
      rw [if_neg h0, hs]
      rfl
    · have hdf : t.description.truthy = false := by simpa using hd
      simp only [hdf, Bool.false_eq_true, if_false]
      refine ⟨rfl, rfl, rfl, rfl, rfl, rfl, ?_⟩
      intro s hs
      have h0 : s = "" := (str_empty_iff s).mp (hs ▸ hdf)
      subst h0
      rw [if_pos rfl]
      rfl

/-- Witness for C7 at a concrete input: a task with the non-empty
description "Build" gets a description field with that value. -/
theorem c7_vscode_projector_shape_witness :
    objLookup (vscodeEntrySpec "task" []
      (ExtractedTask.mk (.str "build") (.str "build") (.str "Build")))
      "description" = some (.str "Build") := by
  have h := ((c7_vscode_projector_shape "task" []
    [ExtractedTask.mk (.str "build") (.str "build") (.str "Build")]).2
    (ExtractedTask.mk (.str "build") (.str "build") (.str "Build"))).2.2.2.2.2.2
    "Build" rfl
  rw [h, if_neg (by decide)]

/-! ## Claim C8: the Zed projector -/

/-- C8 counterexample: the merged options are applied with
`zed_task.update(extra_merged)` after the entry's label/command/args are
set, so an extra option binding "args" overrides the computed args. With
the single task "build" and the extra Zed option `{args: []}`, the emitted
entry's args field is `[]`, not `["build"]` as the claim requires. -/
theorem c8_counterexample_options_override_args :
    generate_zed_tasks "task" [[("args", .arr [])]]
      [ExtractedTask.mk (.str "build") (.str "build") (.str "")] =
      .arr [.obj [("label", .str "build"), ("command", .str "task"),
        ("args", .arr []), ("use_new_terminal", .bool true)]]
    ∧ objLookup (.obj [("label", .str "build"), ("command", .str "task"),
        ("args", .arr []), ("use_new_terminal", .bool true)]) "args" ≠
        some (.arr [.str "build"]) := by
  refine ⟨rfl, ?_⟩
  intro h
  simp [objLookup, List.lookup] at h

/-- C8 (amended): the Zed projector returns a flat list in input order;
each entry is the map {label, command: resolved executable, args: [id]}
updated with the merged options (defaults `{use_new_terminal: true}`
overridden by extras) spread at the top level, the options overriding
label/command/args on key collision; whenever the merged options bind
none of those keys, the entry's command is the resolved executable name,
its args is `[id]`, and its label is "<id> - <description>" when the
description is non-empty and "<id>" otherwise. -/
theorem c8_zed_projector_shape (taskCommand : String)
    (extras : List OptionMap) (tasks : List ExtractedTask) :
    generate_zed_tasks taskCommand extras tasks =
      .arr (tasks.map (zedEntrySpec taskCommand extras))
    ∧ ∀ t : ExtractedTask,
      (∀ (k : String) (v : JValue),
        (merge_options zedDefaultOptions extras).lookup k = some v →
        objLookup (zedEntrySpec taskCommand extras t) k = some v)
      ∧ ((merge_options zedDefaultOptions extras).lookup "command" = none →
        objLookup (zedEntrySpec taskCommand extras t) "command" =
          some (.str taskCommand))
      ∧ ((merge_options zedDefaultOptions extras).lookup "args" = none →
        objLookup (zedEntrySpec taskCommand extras t) "args" =
          some (.arr [t.id]))
      ∧ ((merge_options zedDefaultOptions extras).lookup "label" = none →
        ∀ i d : String, t.id = .str i → t.description = .str d →
          objLookup (zedEntrySpec taskCommand extras t) "label" =
            some (if d = "" then .str i else .str (i ++ " - " ++ d))) := by
  constructor
  · rfl
  · intro t
    refine ⟨?_, ?_, ?_, ?_⟩
    · intro k v h
      show (dictUpdate _ _).lookup k = some v
      rw [lookup_dictUpdate, h]
    · intro h
      show (dictUpdate _ _).lookup "command" = _
      rw [lookup_dictUpdate, h]
      rfl
    · intro h
      show (dictUpdate _ _).lookup "args" = _
      rw [lookup_dictUpdate, h]
      rfl
    · intro h i d hi hd
      show (dictUpdate _ _).lookup "label" = _
      rw [lookup_dictUpdate, h, hi, hd]
      by_cases h0 : d = ""
      · subst h0
        rw [if_pos rfl]
        rfl
      · have hdt : (JValue.str d).truthy = true := by
          cases htr : (JValue.str d).truthy with
          | false => exact absurd ((str_empty_iff d).mp htr) h0
          | true => rfl
        rw [hdt, if_neg h0]
        rfl

/-- Witness for C8 at a concrete input: with no colliding option keys the
entry's args is the one-element id list, and its label joins id and
description. -/
theorem c8_zed_projector_shape_witness :
    objLookup (zedEntrySpec "task" []
      (ExtractedTask.mk (.str "build") (.str "build") (.str "Build")))
      "args" = some (.arr [.str "build"])
    ∧ objLookup (zedEntrySpec "task" []
      (ExtractedTask.mk (.str "build") (.str "build") (.str "Build")))
      "label" = some (.str "build - Build") :=
  ⟨((c8_zed_projector_shape "task" []
      [ExtractedTask.mk (.str "build") (.str "build") (.str "Build")]).2
      (ExtractedTask.mk (.str "build") (.str "build") (.str "Build"))).2.2.1 rfl,
    by
      have h := ((c8_zed_projector_shape "task" []
        [ExtractedTask.mk (.str "build") (.str "build") (.str "Build")]).2
        (ExtractedTask.mk (.str "build") (.str "build") (.str "Build"))).2.2.2
        rfl "build" "Build" rfl rfl
      rw [h, if_neg (by decide)]
      rfl⟩

/-! ## Claim C4: the convert orchestration -/

/-- C4: when extraction yields no tasks, `convert` warns, returns an empty
result and writes nothing; otherwise it does not warn, writes the
projected document for the configured editor to `output_dir/tasks.json`
(one whole-file write) and returns that path; and in every case either
that full document is written or nothing is. -/
theorem c4_convert_warns_or_writes (editor : Editor) (taskCommand : String)
    (skip : List String) (verbose : Bool)
    (extraZed extraVscode : List OptionMap) (outputDir : String)
    (tasksData : List JValue) :
    ((extractList skip verbose tasksData).1 = [] →
      convert editor taskCommand skip verbose extraZed extraVscode outputDir
          tasksData =
        { warnedNoTasks := true, written := none, returnedPath := none })
    ∧ ((extractList skip verbose tasksData).1 ≠ [] →
      (convert editor taskCommand skip verbose extraZed extraVscode outputDir
          tasksData).warnedNoTasks = false
      ∧ (convert editor taskCommand skip verbose extraZed extraVscode
          outputDir tasksData).returnedPath =
            some (outputDir ++ "/tasks.json")
      ∧ (convert editor taskCommand skip verbose extraZed extraVscode
          outputDir tasksData).written =
            some (outputDir ++ "/tasks.json",
              match editor with
              | .vscode => generate_vscode_tasks taskCommand extraVscode
                  (extractList skip verbose tasksData).1
              | .zed => generate_zed_tasks taskCommand extraZed
                  (extractList skip verbose tasksData).1))
    ∧ ((convert editor taskCommand skip verbose extraZed extraVscode
          outputDir tasksData).written = none
        ∨ ∃ doc, (convert editor taskCommand skip verbose extraZed
            extraVscode outputDir tasksData).written =
              some (outputDir ++ "/tasks.json", doc)) := by
  by_cases he : (extractList skip verbose tasksData).1 = []
  · have hbe : (extractList skip verbose tasksData).1.isEmpty = true := by
      simp [he]
    have hconv : convert editor taskCommand skip verbose extraZed extraVscode
        outputDir tasksData =
        { warnedNoTasks := true, written := none, returnedPath := none } := by
      simp [convert, hbe]
    exact ⟨fun _ => hconv, fun hne => absurd he hne,
      Or.inl (by rw [hconv])⟩
  · have hbe : (extractList skip verbose tasksData).1.isEmpty = false := by
      simpa [List.isEmpty_iff] using he
    have hconv : convert editor taskCommand skip verbose extraZed extraVscode
        outputDir tasksData =
        { warnedNoTasks := false,
          written := some (outputDir ++ "/tasks.json",
            match editor with
            | .vscode => generate_vscode_tasks taskCommand extraVscode
                (extractList skip verbose tasksData).1
            | .zed => generate_zed_tasks taskCommand extraZed
                (extractList skip verbose tasksData).1),
          returnedPath := some (outputDir ++ "/tasks.json") } := by
      simp [convert, hbe]
    exact ⟨fun h => absurd h he, fun _ => ⟨by rw [hconv], by rw [hconv],
      by rw [hconv]⟩, Or.inr ⟨_, by rw [hconv]⟩⟩

/-- Witness for C4 at concrete inputs: an empty raw task list yields the
warning and no write; a one-task list yields a write and the output
path. -/
theorem c4_convert_warns_or_writes_witness :
    convert .zed "task" [] false [] [] ".zed" [] =
      { warnedNoTasks := true, written := none, returnedPath := none }
    ∧ (convert .zed "task" [] false [] [] ".zed"
        [.obj [("task", .str "build")]]).returnedPath =
          some (".zed" ++ "/tasks.json") :=
  ⟨(c4_convert_warns_or_writes .zed "task" [] false [] [] ".zed" []).1 rfl,
    ((c4_convert_warns_or_writes .zed "task" [] false [] [] ".zed"
      [.obj [("task", .str "build")]]).2.1 (fun h => List.noConfusion h)).2.1⟩

/-! ## Claim C2: CLI exit codes -/

/-- C2 (code-bug evidence): `main` always passes a `skip_task_patterns`
keyword to the `TaskfileToTasks` constructor, whose parameter list does
not contain it, so the constructor call raises TypeError on every
invocation; the generic handler then prints one line to standard error and
returns exit code 1. Exit code 0 (success) is unreachable. -/
theorem c2_main_always_exits_one :
    initParams.contains "skip_task_patterns" = false
    ∧ mainCallKwargs.contains "skip_task_patterns" = true
    ∧ ∀ rest : Except PyError Unit,
        (mainResult rest).1 = 1 ∧ (mainResult rest).2.length = 1 :=
  ⟨rfl, rfl, fun _ => ⟨rfl, rfl⟩⟩
